import Mathlib

/-!
Verification of the Pond query-engine core (the cursor/selection machinery of
`src/Cursor.cxx` and `src/Selection.cxx`) and of the bundled CLI client
(`src/Client.cxx`, `src/client/ResultWriter.cxx`), as a shallow embedding.

The Database is modelled as a list of records sorted by strictly increasing id
(head = oldest).  A LightCursor position is modelled as an `Option Record`
holding the record the C++ `next` pointer refers to; dereferencing the pointer
reads the stored record without consulting the Database, exactly like a C++
pointer dereference, so a position can be stale (the record was evicted) just
like a dangling pointer.  Components whose sources are not part of the
repository snapshot (LightCursor, Database, Filter, the headers) are modelled
from the specification, each marked `Modelled from the spec:` in its doc
comment.  Everything else is translated line by line from the C++ sources.
-/

set_option maxHeartbeats 1000000

namespace Pond

/-- The parsed view of a log datagram (`Net::Log::Datagram`); all fields are
optional.  Only the fields the verified components inspect are modelled. -/
structure Parsed where
  site : Option String
  host : Option String
  uri : Option String
  status : Option Nat
  timestamp : Option Nat
  deriving DecidableEq, Repr

/-- A Record: a monotonically assigned 64-bit id plus the parsed view. -/
structure Record where
  id : Nat
  parsed : Parsed
  deriving DecidableEq, Repr

/-- UINT64_MAX, the default value of `Selection::end_id`. -/
def UINT64_MAX : Nat := 2 ^ 64 - 1

/-- Modelled from the spec: `Net::Log::TimePoint::min()`. -/
def timeMin : Nat := 0

/-- Modelled from the spec: `Net::Log::TimePoint::max()`. -/
def timeMax : Nat := 2 ^ 64 - 1

/-- The id index lookup: the record with the given id, if live. -/
def findId (db : List Record) (i : Nat) : Option Record :=
  db.find? (fun r => r.id == i)

/-- The smallest live record with id greater than `i` (the database is sorted
by id, so the first such record in list order has the smallest id). -/
def nextAfter (db : List Record) (i : Nat) : Option Record :=
  db.find? (fun r => decide (i < r.id))

/-- Well-formedness of a Database snapshot: ids strictly increase in arrival
order (head = oldest) and every id fits in 64 bits. -/
def DbWF (db : List Record) : Prop :=
  List.Pairwise (fun a b : Record => a.id < b.id) db ∧ ∀ r ∈ db, r.id ≤ UINT64_MAX

instance (db : List Record) : Decidable (DbWF db) := by
  unfold DbWF; infer_instance

/-- Modelled from the spec: LightCursor (its sources are not in the snapshot).
`pos` is the `next` pointer (`none` = unpositioned), `linked` is membership in
the Database's append-listener list. -/
structure LightCursor where
  pos : Option Record
  linked : Bool
  deriving DecidableEq, Repr

/-- Modelled from the spec: `LightCursor::Rewind` positions at the oldest live
record. -/
def LightCursor.Rewind (db : List Record) (c : LightCursor) : LightCursor :=
  { c with pos := db.head? }

/-- Modelled from the spec: `LightCursor::operator++` advances to the next
live record by id. -/
def LightCursor.inc (db : List Record) (c : LightCursor) : LightCursor :=
  { c with pos := c.pos.bind (fun r => nextAfter db r.id) }

/-- Modelled from the spec: `LightCursor::FixDeleted(id)`, if the record
previously at `id` is no longer live, repositions to the smallest live record
with id greater than the eviction point, unlinks, and returns true;
otherwise (still live, or the cursor is unpositioned) returns false. -/
def LightCursor.FixDeleted (db : List Record) (i : Nat) (c : LightCursor) :
    LightCursor × Bool :=
  match c.pos with
  | none => (c, false)
  | some _ =>
    if (findId db i).isSome then (c, false)
    else ({ pos := nextAfter db i, linked := false }, true)

/-- A Cursor: a LightCursor plus the persistent `id` field.  The append
callback stored at construction is passed explicitly to `OnAppend`. -/
structure Cursor where
  light : LightCursor
  id : Nat
  deriving DecidableEq, Repr

/-- Cursor::FixDeleted (Cursor.cxx): call `LightCursor::FixDeleted(id)`; on
true the cursor is not linked and `id` is refreshed by dereferencing the new
position; returns the result.  (When the new position is end, the C++ code
would dereference an end iterator, which is undefined; the model keeps the old
id in that case, and the theorems show the case is characterized separately.) -/
def Cursor.FixDeleted (db : List Record) (c : Cursor) : Cursor × Bool :=
  let p := LightCursor.FixDeleted db c.id c.light
  if p.2 then
    ({ light := p.1, id := match p.1.pos with | some r => r.id | none => c.id }, true)
  else (c, false)

/-- Cursor::Rewind (Cursor.cxx): unlink, rewind the LightCursor, and if now
positioned refresh `id` from the current record. -/
def Cursor.Rewind (db : List Record) (c : Cursor) : Cursor :=
  let l := LightCursor.Rewind db { c.light with linked := false }
  { light := l, id := match l.pos with | some r => r.id | none => c.id }

/-- Cursor::Follow (Cursor.cxx): if not currently positioned and not already
linked, link into the append broadcaster; no-op otherwise. -/
def Cursor.Follow (c : Cursor) : Cursor :=
  if c.light.pos.isNone && !c.light.linked then
    { c with light := { c.light with linked := true } }
  else c

/-- Cursor::OnAppend (Cursor.cxx): set the position to `record`, store its id,
then invoke the append callback.  The callback is modelled as a state
transformer `cb` over an abstract state `st`; the returned state is the state
after the (single, synchronous) callback invocation. -/
def Cursor.OnAppend {σ : Type} (record : Record) (c : Cursor) (st : σ)
    (cb : σ → σ) : Cursor × σ :=
  ({ light := { pos := some record, linked := c.light.linked }, id := record.id },
   cb st)

/-- Cursor::operator++ (Cursor.cxx): advance the LightCursor; if still
positioned, refresh `id`. -/
def Cursor.inc (db : List Record) (c : Cursor) : Cursor :=
  let l := c.light.inc db
  { light := l, id := match l.pos with | some r => r.id | none => c.id }

/-- Modelled from the spec: `Cursor::SetNext` (declared in the missing
Cursor.hxx) positions the cursor at a specific record; invariant (ii) of the
spec (`id == current.GetId()` whenever positioned) requires it to refresh the
persistent id. -/
def Cursor.SetNext (record : Record) (c : Cursor) : Cursor :=
  { light := { pos := some record, linked := c.light.linked }, id := record.id }

/-- Modelled from the spec: a Filter is a pure predicate over the parsed view
(`accept`, the C++ `operator()`) together with the time range fields `since`
and `until_` that `Selection::Rewind` reads. -/
structure Filter where
  accept : Parsed → Bool
  since : Nat
  until_ : Nat

/-- Modelled from the spec: whether a parsed record's timestamp lies in
`[since, until]`; a record without a timestamp fails any non-default time
filter. -/
def timeMatch (since until_ : Nat) (p : Parsed) : Bool :=
  match p.timestamp with
  | some t => decide (since ≤ t) && decide (t ≤ until_)
  | none => false

/-- Modelled from the spec: a Filter with a non-default time range only
accepts records whose timestamp lies in the range. -/
def Filter.WF (f : Filter) : Prop :=
  (f.since ≠ timeMin ∨ f.until_ ≠ timeMax) →
    ∀ p : Parsed, f.accept p = true → timeMatch f.since f.until_ p = true

/-- Modelled from the spec: `Database::TimeRange(since, until)` returns the
id-interval endpoints of the records whose timestamp lies in `[since, until]`
(none if no record matches); the `until`-side endpoint is open (null) when
`until` is the default. -/
def TimeRange (db : List Record) (since until_ : Nat) :
    Option Record × Option Record :=
  let ms := db.filter (fun r => timeMatch since until_ r.parsed)
  (ms.head?, if until_ = timeMax then none else ms.getLast?)

/-- A Selection: one Cursor, one Filter, and the optional `end_id` upper
bound (UINT64_MAX by default). -/
structure Selection where
  cursor : Cursor
  filter : Filter
  end_id : Nat

/-- The loop body of `Selection::SkipMismatches` (Selection.cxx):
`while (cursor && !filter(cursor->GetParsed())) ++cursor;`.  The loop is
expressed with explicit fuel; `db.length + 1` fuel always suffices (proved
below), and `Selection.SkipMismatches` uses exactly that. -/
def skipAux (db : List Record) (accept : Parsed → Bool) :
    Nat → Cursor → Cursor
  | 0, c => c
  | fuel + 1, c =>
    match c.light.pos with
    | none => c
    | some r =>
      if accept r.parsed then c
      else skipAux db accept fuel (Cursor.inc db c)

/-- Selection::SkipMismatches (Selection.cxx): advance the cursor while it is
positioned and the Filter rejects the current record. -/
def Selection.SkipMismatches (db : List Record) (s : Selection) : Selection :=
  { s with cursor := skipAux db s.filter.accept (db.length + 1) s.cursor }

/-- Selection::FixDeleted (Selection.cxx): delegate to the Cursor; on true,
re-run SkipMismatches and return true. -/
def Selection.FixDeleted (db : List Record) (s : Selection) : Selection × Bool :=
  let p := Cursor.FixDeleted db s.cursor
  if p.2 then (Selection.SkipMismatches db { s with cursor := p.1 }, true)
  else (s, false)

/-- Selection::Rewind (Selection.cxx): with a non-default time range, consult
`Database::TimeRange`; if it yields no records the Selection stays empty,
otherwise seed the cursor at the first endpoint and set `end_id` to the id of
the last endpoint when present.  With the default time range, rewind to the
oldest record.  In both cases SkipMismatches runs afterwards. -/
def Selection.Rewind (db : List Record) (s : Selection) : Selection :=
  if s.filter.since ≠ timeMin ∨ s.filter.until_ ≠ timeMax then
    match TimeRange db s.filter.since s.filter.until_ with
    | (none, _) => s
    | (some r1, second) =>
      Selection.SkipMismatches db
        { cursor := Cursor.SetNext r1 s.cursor,
          filter := s.filter,
          end_id := match second with | some r2 => r2.id | none => s.end_id }
  else
    Selection.SkipMismatches db { s with cursor := Cursor.Rewind db s.cursor }

/-- Selection::OnAppend (Selection.cxx): return false if the Filter rejects
the record's parsed view; otherwise position the Cursor on the record (which
fires the append callback) and return true. -/
def Selection.OnAppend {σ : Type} (record : Record) (s : Selection) (st : σ)
    (cb : σ → σ) : Selection × Bool × σ :=
  if s.filter.accept record.parsed then
    let p := Cursor.OnAppend record s.cursor st cb
    ({ s with cursor := p.1 }, true, p.2)
  else (s, false, st)

/-- Selection::operator bool (Selection.cxx): positioned and current id at
most `end_id`. -/
def Selection.toBool (s : Selection) : Bool :=
  match s.cursor.light.pos with
  | some r => decide (r.id ≤ s.end_id)
  | none => false

/-- Selection::operator++ (Selection.cxx): advance the cursor, then
SkipMismatches. -/
def Selection.inc (db : List Record) (s : Selection) : Selection :=
  Selection.SkipMismatches db { s with cursor := Cursor.inc db s.cursor }

/-- Iterating a Selection the way the query drain loop does: while the
Selection is true, yield the current record and advance with operator++. -/
def Selection.iterate (db : List Record) : Nat → Selection → List Record
  | 0, _ => []
  | fuel + 1, s =>
    match s.cursor.light.pos with
    | some r =>
      if r.id ≤ s.end_id then r :: Selection.iterate db fuel (Selection.inc db s)
      else []
    | none => []

/-- The invariant of claim C3: whenever the cursor is positioned, the
persistent `id` equals the id of the record it is positioned on. -/
def Cursor.IdInv (c : Cursor) : Prop :=
  ∀ r : Record, c.light.pos = some r → c.id = r.id

/-! ### The bundled CLI client (Client.cxx) -/

/-- `std::numeric_limits<uint16_t>::max()`, the bound `PondClient::Send`
compares the payload size against. -/
def uint16Max : Nat := 65535

/-- ToBE16: a 16-bit value encoded as two big-endian bytes. -/
def toBE16 (x : Nat) : List Nat := [x / 256 % 256, x % 256]

/-- The 6-byte frame header (Protocol.hxx): big-endian id, command, size. -/
structure PondHeader where
  id : List Nat
  command : List Nat
  size : List Nat
  deriving DecidableEq, Repr

/-- PondClient::Send (Client.cxx): throws "Payload is too large" when
`payload.size >= std::numeric_limits<uint16_t>::max()`; otherwise encodes the
header (big-endian 16-bit fields) and sends header plus payload. -/
def PondClient.Send (id command : Nat) (payload : List Nat) :
    Except String (PondHeader × List Nat) :=
  if payload.length ≥ uint16Max then Except.error "Payload is too large"
  else Except.ok
    ({ id := toBE16 id, command := toBE16 command, size := toBE16 payload.length },
     payload)

/-! ### The per-site append writer (client/ResultWriter.cxx) -/

/-- IsAlphaNumericASCII (util/CharUtil.hxx): ASCII letters and digits. -/
def IsAlphaNumericASCII (ch : Char) : Bool :=
  (decide ('a' ≤ ch) && decide (ch ≤ 'z')) ||
  (decide ('A' ≤ ch) && decide (ch ≤ 'Z')) ||
  (decide ('0' ≤ ch) && decide (ch ≤ '9'))

/-- IsSafeSiteChar (ResultWriter.cxx). -/
def IsSafeSiteChar (ch : Char) : Bool := IsAlphaNumericASCII ch

/-- SanitizeSiteName (ResultWriter.cxx): fails (nullptr) when the site name is
empty or does not fit the buffer; otherwise keeps safe characters and replaces
every other character with an underscore.  The C++ works on bytes; the model
works on characters, which agrees on ASCII input. -/
def SanitizeSiteName (bufferSize : Nat) (site : String) : Option String :=
  if site.length = 0 ∨ site.length ≥ bufferSize then none
  else some (String.mk (site.data.map (fun ch => if IsSafeSiteChar ch then ch else '_')))

/-- Flags a per-site output file is opened with. -/
structure OpenFlags where
  creat : Bool
  append : Bool
  nofollow : Bool
  deriving DecidableEq, Repr

/-- ResultWriter::Write opens per-site files with `O_CREAT|O_APPEND|O_NOFOLLOW`
(ResultWriter.cxx line 147). -/
def perSiteOpenFlags : OpenFlags := { creat := true, append := true, nofollow := true }

/-- What the per-site-append branch of ResultWriter::Write does with one
record. -/
inductive WriteAction where
  | dropped : WriteAction
  | appendLine (filename : String) (flags : OpenFlags) : WriteAction
  deriving DecidableEq, Repr

/-- The per-site-append branch of ResultWriter::Write (ResultWriter.cxx):
records whose parsed datagram has no site are dropped (the TODO comment in the
source), records whose site name cannot be sanitized are dropped, and every
other record appends one line to the file named by the sanitized site name.
`bufferSize` is `sizeof(last_site)` (declared in the missing header). -/
def ResultWriter.writePerSite (bufferSize : Nat) (site : Option String) :
    WriteAction :=
  match site with
  | none => WriteAction.dropped
  | some s =>
    match SanitizeSiteName bufferSize s with
    | none => WriteAction.dropped
    | some name => WriteAction.appendLine name perSiteOpenFlags

/-! ### The CLI query loop and main (Client.cxx) -/

/-- Server-to-client response commands. -/
inductive PondResponseCommand where
  | nop
  | error
  | logRecord
  | done
  deriving DecidableEq, Repr

/-- One received frame: decoded id, command, payload bytes. -/
structure RxFrame where
  id : Nat
  command : PondResponseCommand
  payload : List Nat
  deriving DecidableEq, Repr

/-- How the `Query` receive loop ends: a clean END frame, or a thrown
exception (server ERROR payload, or premature end of stream when the
connection closes first). -/
inductive QueryOutcome where
  | cleanEnd : QueryOutcome
  | thrown (msg : String) : QueryOutcome
  deriving DecidableEq, Repr

/-- Observable effects of the `Query` receive loop. -/
structure QueryRun where
  outcome : QueryOutcome
  stdoutLines : List String
  packets : List (List Nat)
  stderrLines : List String
  deriving DecidableEq, Repr

/-- The receive loop of `Query` (Client.cxx lines 247-281).  `toText` models
`PondDatagram::payload.ToString` and `parseRecord` models
`Net::Log::ParseDatagram` followed by `LogOneLine` (some rendered line, or
none on `Net::Log::ProtocolError`); both are external collaborators.
`stdoutIsPacket` tells whether stdout is a packet socket.  Frames whose id
differs from `qid` are skipped with `continue`.  An empty frame list models
the peer closing the connection, which makes `Receive` throw. -/
def runQueryLoop (toText : List Nat → String)
    (parseRecord : List Nat → Option String) (stdoutIsPacket : Bool)
    (qid : Nat) : List RxFrame → QueryRun
  | [] => { outcome := QueryOutcome.thrown "Premature end of stream",
            stdoutLines := [], packets := [], stderrLines := [] }
  | f :: rest =>
    if f.id ≠ qid then runQueryLoop toText parseRecord stdoutIsPacket qid rest
    else
      match f.command with
      | PondResponseCommand.nop =>
          runQueryLoop toText parseRecord stdoutIsPacket qid rest
      | PondResponseCommand.error =>
          { outcome := QueryOutcome.thrown (toText f.payload),
            stdoutLines := [], packets := [], stderrLines := [] }
      | PondResponseCommand.done =>
          { outcome := QueryOutcome.cleanEnd,
            stdoutLines := [], packets := [], stderrLines := [] }
      | PondResponseCommand.logRecord =>
          if stdoutIsPacket then
            let r := runQueryLoop toText parseRecord stdoutIsPacket qid rest
            { r with packets := f.payload :: r.packets }
          else
            match parseRecord f.payload with
            | some line =>
                let r := runQueryLoop toText parseRecord stdoutIsPacket qid rest
                { r with stdoutLines := line :: r.stdoutLines }
            | none =>
                let r := runQueryLoop toText parseRecord stdoutIsPacket qid rest
                { r with stderrLines := "Failed to parse log record" :: r.stderrLines }

/-- EXIT_SUCCESS. -/
def EXIT_SUCCESS : Nat := 0

/-- EXIT_FAILURE. -/
def EXIT_FAILURE : Nat := 1

/-- The usage message `main` prints when fewer than two arguments are given
(Client.cxx lines 288-291), split into lines. -/
def usageLines (prog : String) : List String :=
  ["Usage: " ++ prog ++ " SERVER[:PORT] COMMAND ...",
   "",
   "Commands:",
   "  query [--follow] [site=VALUE]"]

/-- The argument loop of `Query` (Client.cxx lines 225-233): `site=VALUE`
sets the site filter (last occurrence wins), `--follow` sets follow mode, and
anything else throws "Unrecognized query argument". -/
def parseQueryArgs (site : Option String) (follow : Bool) :
    List String → Except String (Option String × Bool)
  | [] => Except.ok (site, follow)
  | a :: rest =>
    if a.startsWith "site=" then parseQueryArgs (some (a.drop 5)) follow rest
    else if a = "--follow" then parseQueryArgs site true rest
    else Except.error "Unrecognized query argument"

/-- Observable result of running the CLI client. -/
structure CliResult where
  exitCode : Nat
  stderrLines : List String
  stdoutLines : List String
  packets : List (List Nat)
  deriving DecidableEq, Repr

/-- `main` of the bundled client (Client.cxx lines 283-311): with fewer than
two arguments print the usage message and fail; dispatch `query` to the
receive loop (the query id is `MakeId() = 1`); print "Unknown command: " plus
the command name and fail otherwise.  A thrown exception is printed to stderr
by the catch blocks and the exit code is EXIT_FAILURE. -/
def mainRun (toText : List Nat → String)
    (parseRecord : List Nat → Option String) (stdoutIsPacket : Bool)
    (prog : String) (args : List String) (frames : List RxFrame) : CliResult :=
  match args with
  | server :: command :: queryArgs =>
    let _ := server
    if command = "query" then
      match parseQueryArgs none false queryArgs with
      | Except.error msg =>
          { exitCode := EXIT_FAILURE, stderrLines := [msg],
            stdoutLines := [], packets := [] }
      | Except.ok _ =>
          let run := runQueryLoop toText parseRecord stdoutIsPacket 1 frames
          match run.outcome with
          | QueryOutcome.cleanEnd =>
              { exitCode := EXIT_SUCCESS, stderrLines := run.stderrLines,
                stdoutLines := run.stdoutLines, packets := run.packets }
          | QueryOutcome.thrown msg =>
              { exitCode := EXIT_FAILURE,
                stderrLines := run.stderrLines ++ [msg],
                stdoutLines := run.stdoutLines, packets := run.packets }
    else
      { exitCode := EXIT_FAILURE,
        stderrLines := ["Unknown command: " ++ command],
        stdoutLines := [], packets := [] }
  | _ =>
    { exitCode := EXIT_FAILURE, stderrLines := usageLines prog,
      stdoutLines := [], packets := [] }

/-- A concrete three-record database used by the C1 witness. -/
def dbW : List Record :=
  [{ id := 1, parsed := ⟨some "a", none, none, none, some 10⟩ },
   { id := 2, parsed := ⟨some "b", none, none, none, some 11⟩ },
   { id := 3, parsed := ⟨some "a", none, none, none, some 12⟩ }]

/-- A concrete site-filtering selection used by the C1 witness. -/
def sW : Selection :=
  { cursor := { light := { pos := none, linked := false }, id := 0 },
    filter := { accept := fun p => p.site == some "a",
                since := timeMin, until_ := timeMax },
    end_id := UINT64_MAX }

/-! ## Theorems -/

/-! ### List infrastructure lemmas -/

/-- find? only depends on the predicate's values on the list members. -/
theorem find?_congr_mem {α : Type} (l : List α) (p q : α → Bool)
    (h : ∀ a ∈ l, p a = q a) : l.find? p = l.find? q := by
  induction l with
  | nil => rfl
  | cons a t ih =>
    have ha := h a (List.mem_cons_self a t)
    by_cases hp : p a = true
    · rw [List.find?_cons_of_pos _ hp, List.find?_cons_of_pos _ (ha ▸ hp)]
    · rw [List.find?_cons_of_neg _ hp, List.find?_cons_of_neg _ (fun hq => hp (by rw [ha]; exact hq))]
      exact ih (fun x hx => h x (List.mem_cons_of_mem _ hx))

/-- A weaker predicate keeps at least as many list elements. -/
theorem length_filter_le_mono {α : Type} (l : List α) (p q : α → Bool)
    (h : ∀ x, p x = true → q x = true) :
    (l.filter p).length ≤ (l.filter q).length := by
  induction l with
  | nil => simp
  | cons a t ih =>
    by_cases hp : p a = true
    · rw [List.filter_cons_of_pos hp, List.filter_cons_of_pos (h a hp)]
      simpa using ih
    · rw [List.filter_cons_of_neg hp]
      by_cases hq : q a = true
      · rw [List.filter_cons_of_pos hq]
        exact Nat.le_succ_of_le ih
      · rw [List.filter_cons_of_neg hq]
        exact ih

/-- Strictly fewer records have id above a bound that excludes a member below it. -/
theorem length_filter_lt_strict (db : List Record) (b bp : Nat) (r : Record)
    (hr : r ∈ db) (h1 : b ≤ r.id) (h2 : r.id < bp) :
    (db.filter (fun x => decide (bp ≤ x.id))).length <
      (db.filter (fun x => decide (b ≤ x.id))).length := by
  induction db with
  | nil => cases hr
  | cons a t ih =>
    rcases List.mem_cons.mp hr with rfl | hrt
    · rw [List.filter_cons_of_neg (by simp only [decide_eq_true_eq]; omega),
          List.filter_cons_of_pos (by simp only [decide_eq_true_eq]; omega)]
      have hmono := length_filter_le_mono t (fun x => decide (bp ≤ x.id))
        (fun x => decide (b ≤ x.id))
        (fun x hx => by simp only [decide_eq_true_eq] at hx ⊢; omega)
      simp only [List.length_cons]
      omega
    · have hlt := ih hrt
      by_cases hpa : bp ≤ a.id
      · rw [List.filter_cons_of_pos (by simp only [decide_eq_true_eq]; omega),
            List.filter_cons_of_pos (by simp only [decide_eq_true_eq]; omega)]
        simpa using hlt
      · rw [List.filter_cons_of_neg (by simp only [decide_eq_true_eq]; omega)]
        by_cases hba : b ≤ a.id
        · rw [List.filter_cons_of_pos (by simp only [decide_eq_true_eq]; omega)]
          simp only [List.length_cons]
          omega
        · rw [List.filter_cons_of_neg (by simp only [decide_eq_true_eq]; omega)]
          exact hlt

/-- In a database sorted by strictly increasing id, ids identify records. -/
theorem eq_of_mem_of_id_eq (db : List Record)
    (hdb : List.Pairwise (fun a b : Record => a.id < b.id) db)
    {r r' : Record} (h1 : r ∈ db) (h2 : r' ∈ db) (h : r.id = r'.id) : r = r' := by
  induction db with
  | nil => cases h1
  | cons a t ih =>
    have hpw := List.pairwise_cons.mp hdb
    rcases List.mem_cons.mp h1 with rfl | h1t
    · rcases List.mem_cons.mp h2 with rfl | h2t
      · rfl
      · exact absurd h (Nat.ne_of_lt (hpw.1 r' h2t))
    · rcases List.mem_cons.mp h2 with rfl | h2t
      · exact absurd h.symm (Nat.ne_of_lt (hpw.1 r h1t))
      · exact ih hpw.2 h1t h2t

/-- On a database sorted by id, find? returns the record with the smallest id
among those satisfying the predicate. -/
theorem find?_min_id (db : List Record)
    (hdb : List.Pairwise (fun a b : Record => a.id < b.id) db)
    (p : Record → Bool) (r : Record) (h : db.find? p = some r) :
    ∀ x ∈ db, p x = true → r.id ≤ x.id := by
  induction db with
  | nil => cases h
  | cons a t ih =>
    have hpw := List.pairwise_cons.mp hdb
    by_cases hpa : p a = true
    · rw [List.find?_cons_of_pos _ hpa] at h
      cases h
      intro x hx _hpx
      rcases List.mem_cons.mp hx with rfl | hxt
      · exact Nat.le_refl _
      · exact Nat.le_of_lt (hpw.1 x hxt)
    · rw [List.find?_cons_of_neg _ hpa] at h
      intro x hx hpx
      rcases List.mem_cons.mp hx with rfl | hxt
      · exact absurd hpx hpa
      · exact ih hpw.2 h x hxt hpx

/-- On a database sorted by id, a member on which the predicate holds and
whose id is minimal among the satisfying records is what find? returns. -/
theorem find?_eq_some_of_min (db : List Record)
    (hdb : List.Pairwise (fun a b : Record => a.id < b.id) db)
    (r0 : Record) (h0 : r0 ∈ db) (p : Record → Bool) (hp : p r0 = true)
    (hmono : ∀ r ∈ db, p r = true → r0.id ≤ r.id) :
    db.find? p = some r0 := by
  induction db with
  | nil => cases h0
  | cons a t ih =>
    have hpw := List.pairwise_cons.mp hdb
    rcases List.mem_cons.mp h0 with rfl | h0t
    · rw [List.find?_cons_of_pos _ hp]
    · have hpa : ¬ p a = true := by
        intro hpa
        have hle := hmono a (List.mem_cons_self a t) hpa
        have hgt := hpw.1 r0 h0t
        omega
      rw [List.find?_cons_of_neg _ hpa]
      exact ih hpw.2 h0t (fun r hr hpr => hmono r (List.mem_cons_of_mem a hr) hpr)

/-- nextAfter yields a live record with a strictly larger id. -/
theorem nextAfter_mem_gt (db : List Record) (i : Nat) (r : Record)
    (h : nextAfter db i = some r) : r ∈ db ∧ i < r.id := by
  unfold nextAfter at h
  refine ⟨List.mem_of_find?_eq_some h, ?_⟩
  have := List.find?_some h
  simpa using this

/-! ### Cursor stepping lemmas -/

/-- The mismatch-skipping loop is the identity on an unpositioned cursor. -/
theorem skipAux_of_pos_none (db : List Record) (accept : Parsed → Bool)
    (fuel : Nat) (c : Cursor) (h : c.light.pos = none) :
    skipAux db accept fuel c = c := by
  cases fuel with
  | zero => rfl
  | succ n =>
    unfold skipAux
    rw [h]

/-- Advancing from a positioned cursor moves to the next live record by id
and preserves linkage. -/
theorem Cursor.inc_light (db : List Record) (c : Cursor) (r0 : Record)
    (h : c.light.pos = some r0) :
    (Cursor.inc db c).light.pos = nextAfter db r0.id ∧
    (Cursor.inc db c).light.linked = c.light.linked := by
  simp [Cursor.inc, LightCursor.inc, h]

/-- Advancing refreshes the persistent id when still positioned. -/
theorem Cursor.inc_id (db : List Record) (c : Cursor) (r1 : Record)
    (h : (Cursor.inc db c).light.pos = some r1) :
    (Cursor.inc db c).id = r1.id := by
  simp only [Cursor.inc] at h ⊢
  rw [h]

/-- Characterization of the SkipMismatches loop: starting positioned on a
live record `r0`, with enough fuel, the loop lands on the first live record
with id at least `r0.id` that the filter accepts (refreshing the persistent
id if it moved), or becomes unpositioned when there is none; linkage is
untouched. -/
theorem skipAux_spec (db : List Record)
    (hdb : List.Pairwise (fun a b : Record => a.id < b.id) db)
    (accept : Parsed → Bool) :
    ∀ (fuel : Nat) (c : Cursor) (r0 : Record),
      c.light.pos = some r0 → r0 ∈ db →
      (db.filter (fun r => decide (r0.id ≤ r.id))).length ≤ fuel →
      (skipAux db accept fuel c).light.linked = c.light.linked ∧
      (∀ r, db.find? (fun r => decide (r0.id ≤ r.id) && accept r.parsed) = some r →
        (skipAux db accept fuel c).light.pos = some r ∧
        (c.id = r0.id → (skipAux db accept fuel c).id = r.id)) ∧
      (db.find? (fun r => decide (r0.id ≤ r.id) && accept r.parsed) = none →
        (skipAux db accept fuel c).light.pos = none) := by
  intro fuel
  induction fuel with
  | zero =>
    intro c r0 hpos hmem hfuel
    exfalso
    have hm : r0 ∈ db.filter (fun r => decide (r0.id ≤ r.id)) :=
      List.mem_filter.mpr ⟨hmem, by simp⟩
    have := List.length_pos.mpr (List.ne_nil_of_mem hm)
    omega
  | succ n ih =>
    intro c r0 hpos hmem hfuel
    have hunf : skipAux db accept (n + 1) c =
        if accept r0.parsed = true then c
        else skipAux db accept n (Cursor.inc db c) := by
      conv_lhs => unfold skipAux
      rw [hpos]
    by_cases hacc : accept r0.parsed = true
    · have hskip : skipAux db accept (n + 1) c = c := by
        rw [hunf, if_pos hacc]
      have hfind : db.find? (fun r => decide (r0.id ≤ r.id) && accept r.parsed) = some r0 :=
        find?_eq_some_of_min db hdb r0 hmem _ (by simp [hacc])
          (fun r _ hpr => by
            have h1 := ((Bool.and_eq_true _ _).mp hpr).1
            simpa using h1)
      refine ⟨by rw [hskip], ?_, ?_⟩
      · intro r hr
        rw [hfind] at hr
        cases hr
        exact ⟨by rw [hskip]; exact hpos, fun hid => by rw [hskip]; exact hid⟩
      · intro hnone
        rw [hfind] at hnone
        cases hnone
    · have hskip : skipAux db accept (n + 1) c = skipAux db accept n (Cursor.inc db c) := by
        rw [hunf, if_neg hacc]
      have hacc' : accept r0.parsed = false := by
        revert hacc
        cases accept r0.parsed <;> simp
      have hincl := Cursor.inc_light db c r0 hpos
      rcases hnext : nextAfter db r0.id with _ | r1
      · have hpos' : (Cursor.inc db c).light.pos = none := by rw [hincl.1, hnext]
        have hstop : skipAux db accept n (Cursor.inc db c) = Cursor.inc db c :=
          skipAux_of_pos_none db accept n _ hpos'
        have hnogt : ∀ x ∈ db, ¬ (decide (r0.id < x.id) = true) := by
          unfold nextAfter at hnext
          exact List.find?_eq_none.mp hnext
        have hfind : db.find? (fun r => decide (r0.id ≤ r.id) && accept r.parsed) = none := by
          rw [List.find?_eq_none]
          intro x hx hpx
          have h1 : r0.id ≤ x.id := by
            have := ((Bool.and_eq_true _ _).mp hpx).1
            simpa using this
          have h2 : accept x.parsed = true := ((Bool.and_eq_true _ _).mp hpx).2
          rcases Nat.lt_or_ge r0.id x.id with hlt | hge
          · exact hnogt x hx (by simpa using hlt)
          · have hxid : x.id = r0.id := Nat.le_antisymm hge h1
            have hxeq : x = r0 := eq_of_mem_of_id_eq db hdb hx hmem hxid
            rw [hxeq] at h2
            exact hacc h2
        refine ⟨?_, ?_, ?_⟩
        · rw [hskip, hstop, hincl.2]
        · intro r hr
          rw [hfind] at hr
          cases hr
        · intro _
          rw [hskip, hstop]
          exact hpos'
      · have hmem1 : r1 ∈ db := (nextAfter_mem_gt db r0.id r1 hnext).1
        have hgt1 : r0.id < r1.id := (nextAfter_mem_gt db r0.id r1 hnext).2
        have hpos' : (Cursor.inc db c).light.pos = some r1 := by rw [hincl.1, hnext]
        have hid' : (Cursor.inc db c).id = r1.id := Cursor.inc_id db c r1 hpos'
        have hfuel' : (db.filter (fun r => decide (r1.id ≤ r.id))).length ≤ n := by
          have := length_filter_lt_strict db r0.id r1.id r0 hmem (Nat.le_refl _) hgt1
          omega
        have ihres := ih (Cursor.inc db c) r1 hpos' hmem1 hfuel'
        have hmin1 : ∀ x ∈ db, r0.id < x.id → r1.id ≤ x.id := by
          intro x hx hlt
          unfold nextAfter at hnext
          exact find?_min_id db hdb _ r1 hnext x hx (by simpa using hlt)
        have hshift : db.find? (fun r => decide (r0.id ≤ r.id) && accept r.parsed)
            = db.find? (fun r => decide (r1.id ≤ r.id) && accept r.parsed) := by
          apply find?_congr_mem
          intro a ha
          by_cases h0a : r0.id ≤ a.id
          · by_cases heq : a.id = r0.id
            · have haeq : a = r0 := eq_of_mem_of_id_eq db hdb ha hmem heq
              rw [haeq, hacc']
              simp
            · have hlt : r0.id < a.id := Nat.lt_of_le_of_ne h0a (fun hh => heq hh.symm)
              have h1a : r1.id ≤ a.id := hmin1 a ha hlt
              simp [h0a, h1a]
          · have h1a : ¬ r1.id ≤ a.id := by omega
            simp [h0a, h1a]
        refine ⟨?_, ?_, ?_⟩
        · rw [hskip, ihres.1, hincl.2]
        · intro r hr
          rw [hshift] at hr
          have hres := ihres.2.1 r hr
          exact ⟨by rw [hskip]; exact hres.1, fun _ => by rw [hskip]; exact hres.2 hid'⟩
        · intro hnone
          rw [hshift] at hnone
          rw [hskip]
          exact ihres.2.2 hnone

/-- SkipMismatches with its canonical fuel: from a live position `r0`, it
lands on the first live record with id at least `r0.id` accepted by the
filter, or becomes unpositioned; linkage is untouched. -/
theorem SkipMismatches_spec (db : List Record)
    (hdb : List.Pairwise (fun a b : Record => a.id < b.id) db)
    (s : Selection) (r0 : Record)
    (hpos : s.cursor.light.pos = some r0) (hmem : r0 ∈ db) :
    (Selection.SkipMismatches db s).cursor.light.linked = s.cursor.light.linked ∧
    (∀ r, db.find? (fun r => decide (r0.id ≤ r.id) && s.filter.accept r.parsed) = some r →
      (Selection.SkipMismatches db s).cursor.light.pos = some r ∧
      (s.cursor.id = r0.id → (Selection.SkipMismatches db s).cursor.id = r.id)) ∧
    (db.find? (fun r => decide (r0.id ≤ r.id) && s.filter.accept r.parsed) = none →
      (Selection.SkipMismatches db s).cursor.light.pos = none) := by
  have hfuel : (db.filter (fun r => decide (r0.id ≤ r.id))).length ≤ db.length + 1 :=
    Nat.le_succ_of_le (List.length_filter_le _ _)
  exact skipAux_spec db hdb s.filter.accept (db.length + 1) s.cursor r0 hpos hmem hfuel

/-- C2: Cursor::FixDeleted calls LightCursor::FixDeleted(id) and returns its
result; when it returns true the cursor is not linked and its persistent id
is refreshed from the new position, which is the smallest live record with id
greater than the eviction point; Selection::FixDeleted then re-runs
SkipMismatches, so after a successful fix the selection sits on a live
matching record at or before every live matching record beyond the last-known
id — no matching record is skipped. -/
theorem c2_fixdeleted_repair (db : List Record) (hdb : DbWF db) (s : Selection) :
    (∀ c : Cursor,
      (Cursor.FixDeleted db c).2 = (LightCursor.FixDeleted db c.id c.light).2 ∧
      ((Cursor.FixDeleted db c).2 = false → (Cursor.FixDeleted db c).1 = c) ∧
      ((Cursor.FixDeleted db c).2 = true →
        (Cursor.FixDeleted db c).1.light.linked = false ∧
        (Cursor.FixDeleted db c).1.light.pos = nextAfter db c.id ∧
        (∀ r, nextAfter db c.id = some r →
          (Cursor.FixDeleted db c).1.id = r.id ∧ r ∈ db ∧ c.id < r.id ∧
          ∀ x ∈ db, c.id < x.id → r.id ≤ x.id))) ∧
    (Selection.FixDeleted db s).2 = (Cursor.FixDeleted db s.cursor).2 ∧
    ((Selection.FixDeleted db s).2 = true →
      ∀ x ∈ db, s.filter.accept x.parsed = true → s.cursor.id < x.id →
        ∃ rp, (Selection.FixDeleted db s).1.cursor.light.pos = some rp ∧
          rp ∈ db ∧ s.filter.accept rp.parsed = true ∧ rp.id ≤ x.id) := by
  have hcur : ∀ c : Cursor,
      (Cursor.FixDeleted db c).2 = (LightCursor.FixDeleted db c.id c.light).2 ∧
      ((Cursor.FixDeleted db c).2 = false → (Cursor.FixDeleted db c).1 = c) ∧
      ((Cursor.FixDeleted db c).2 = true →
        (Cursor.FixDeleted db c).1.light.linked = false ∧
        (Cursor.FixDeleted db c).1.light.pos = nextAfter db c.id ∧
        (∀ r, nextAfter db c.id = some r → (Cursor.FixDeleted db c).1.id = r.id)) := by
    intro c
    rcases hpos : c.light.pos with _ | rcur
    · have hp : LightCursor.FixDeleted db c.id c.light = (c.light, false) := by
        unfold LightCursor.FixDeleted
        rw [hpos]
      refine ⟨?_, ?_, ?_⟩
      · simp [Cursor.FixDeleted, hp]
      · intro _
        simp [Cursor.FixDeleted, hp]
      · intro habs
        exfalso
        simp [Cursor.FixDeleted, hp] at habs
    · by_cases hlive : (findId db c.id).isSome
      · have hp : LightCursor.FixDeleted db c.id c.light = (c.light, false) := by
          unfold LightCursor.FixDeleted
          rw [hpos]
          simp [hlive]
        refine ⟨?_, ?_, ?_⟩
        · simp [Cursor.FixDeleted, hp]
        · intro _
          simp [Cursor.FixDeleted, hp]
        · intro habs
          exfalso
          simp [Cursor.FixDeleted, hp] at habs
      · have hp : LightCursor.FixDeleted db c.id c.light =
            ({ pos := nextAfter db c.id, linked := false }, true) := by
          unfold LightCursor.FixDeleted
          rw [hpos]
          simp [hlive]
        refine ⟨?_, ?_, ?_⟩
        · simp [Cursor.FixDeleted, hp]
        · intro habs
          exfalso
          simp [Cursor.FixDeleted, hp] at habs
        · intro _
          refine ⟨?_, ?_, ?_⟩
          · simp [Cursor.FixDeleted, hp]
          · simp [Cursor.FixDeleted, hp]
          · intro r hr
            simp [Cursor.FixDeleted, hp, hr]
  have hsel2 : (Selection.FixDeleted db s).2 = (Cursor.FixDeleted db s.cursor).2 := by
    rcases h : (Cursor.FixDeleted db s.cursor).2 with _ | _
    · simp [Selection.FixDeleted, h]
    · simp [Selection.FixDeleted, h]
  refine ⟨?_, hsel2, ?_⟩
  · intro c
    refine ⟨(hcur c).1, (hcur c).2.1, ?_⟩
    intro htrue
    refine ⟨((hcur c).2.2 htrue).1, ((hcur c).2.2 htrue).2.1, ?_⟩
    intro r hr
    refine ⟨((hcur c).2.2 htrue).2.2 r hr, (nextAfter_mem_gt db c.id r hr).1,
           (nextAfter_mem_gt db c.id r hr).2, ?_⟩
    intro x hx hgx
    unfold nextAfter at hr
    exact find?_min_id db hdb.1 _ r hr x hx (by simpa using hgx)
  · intro htrue x hx hax hgx
    have hp2 : (Cursor.FixDeleted db s.cursor).2 = true := by
      rw [← hsel2]
      exact htrue
    obtain ⟨r1, hr1⟩ : ∃ r1, nextAfter db s.cursor.id = some r1 := by
      rcases hcase : nextAfter db s.cursor.id with _ | r1
      · exfalso
        unfold nextAfter at hcase
        exact List.find?_eq_none.mp hcase x hx (by simpa using hgx)
      · exact ⟨r1, rfl⟩
    have hcurfix := (hcur s.cursor).2.2 hp2
    have hmem1 := (nextAfter_mem_gt db s.cursor.id r1 hr1).1
    have h1x : r1.id ≤ x.id := by
      unfold nextAfter at hr1
      exact find?_min_id db hdb.1 _ r1 hr1 x hx (by simpa using hgx)
    have hposf : (Cursor.FixDeleted db s.cursor).1.light.pos = some r1 := by
      rw [hcurfix.2.1, hr1]
    have hresult : (Selection.FixDeleted db s).1 =
        Selection.SkipMismatches db { s with cursor := (Cursor.FixDeleted db s.cursor).1 } := by
      simp [Selection.FixDeleted, hp2]
    have hskip := SkipMismatches_spec db hdb.1
      { s with cursor := (Cursor.FixDeleted db s.cursor).1 } r1 hposf hmem1
    rcases hfind : db.find? (fun r => decide (r1.id ≤ r.id) && s.filter.accept r.parsed)
      with _ | rp
    · exfalso
      exact List.find?_eq_none.mp hfind x hx (by simp [h1x, hax])
    · have hsome := hskip.2.1 rp hfind
      refine ⟨rp, ?_, List.mem_of_find?_eq_some hfind, ?_, ?_⟩
      · rw [hresult]
        exact hsome.1
      · have hrp := List.find?_some hfind
        exact ((Bool.and_eq_true _ _).mp hrp).2
      · exact find?_min_id db hdb.1 _ rp hfind x hx (by simp [h1x, hax])

/-- Witness for C2 at a concrete database and a cursor whose record was
evicted. -/
theorem c2_witness :
    DbWF [{ id := 3, parsed := ⟨none, none, none, none, none⟩ },
          { id := 4, parsed := ⟨none, none, none, none, none⟩ }] ∧
    (Selection.FixDeleted
        [{ id := 3, parsed := ⟨none, none, none, none, none⟩ },
         { id := 4, parsed := ⟨none, none, none, none, none⟩ }]
        { cursor := { light := { pos := some { id := 1, parsed := ⟨none, none, none, none, none⟩ },
                                 linked := false }, id := 1 },
          filter := { accept := fun _ => true, since := 0, until_ := timeMax },
          end_id := UINT64_MAX }).2 =
      (Cursor.FixDeleted
        [{ id := 3, parsed := ⟨none, none, none, none, none⟩ },
         { id := 4, parsed := ⟨none, none, none, none, none⟩ }]
        { light := { pos := some { id := 1, parsed := ⟨none, none, none, none, none⟩ },
                     linked := false }, id := 1 }).2 :=
  ⟨by decide,
   (c2_fixdeleted_repair
     [{ id := 3, parsed := ⟨none, none, none, none, none⟩ },
      { id := 4, parsed := ⟨none, none, none, none, none⟩ }]
     (by decide)
     { cursor := { light := { pos := some { id := 1, parsed := ⟨none, none, none, none, none⟩ },
                              linked := false }, id := 1 },
       filter := { accept := fun _ => true, since := 0, until_ := timeMax },
       end_id := UINT64_MAX }).2.1⟩

/-- Iterating an unpositioned selection yields nothing. -/
theorem iterate_of_pos_none (db : List Record) (fuel : Nat) (s : Selection)
    (h : s.cursor.light.pos = none) : Selection.iterate db fuel s = [] := by
  cases fuel with
  | zero => rfl
  | succ n =>
    conv_lhs => unfold Selection.iterate
    rw [h]

/-- Rewind with the default time range rewinds the cursor and skips. -/
theorem Rewind_default (db : List Record) (s : Selection)
    (hcond : ¬(s.filter.since ≠ timeMin ∨ s.filter.until_ ≠ timeMax)) :
    Selection.Rewind db s =
      Selection.SkipMismatches db { s with cursor := Cursor.Rewind db s.cursor } := by
  unfold Selection.Rewind
  rw [if_neg hcond]

/-- Rewind with a non-default time range that matches nothing is the
identity. -/
theorem Rewind_first_none (db : List Record) (s : Selection)
    (hcond : s.filter.since ≠ timeMin ∨ s.filter.until_ ≠ timeMax)
    (hfirst : (TimeRange db s.filter.since s.filter.until_).1 = none) :
    Selection.Rewind db s = s := by
  unfold Selection.Rewind
  rw [if_pos hcond]
  rcases htr : TimeRange db s.filter.since s.filter.until_ with ⟨f, sec⟩
  rw [htr] at hfirst
  simp only at hfirst
  subst hfirst
  rfl

/-- Rewind with a non-default time range that matches something seeds the
cursor at the first endpoint, installs the end id, and skips. -/
theorem Rewind_first_some (db : List Record) (s : Selection)
    (hcond : s.filter.since ≠ timeMin ∨ s.filter.until_ ≠ timeMax)
    (r1 : Record)
    (hfirst : (TimeRange db s.filter.since s.filter.until_).1 = some r1) :
    Selection.Rewind db s =
      Selection.SkipMismatches db
        { cursor := Cursor.SetNext r1 s.cursor, filter := s.filter,
          end_id := match (TimeRange db s.filter.since s.filter.until_).2 with
                    | some r2 => r2.id
                    | none => s.end_id } := by
  unfold Selection.Rewind
  rw [if_pos hcond]
  rcases htr : TimeRange db s.filter.since s.filter.until_ with ⟨f, sec⟩
  rw [htr] at hfirst
  simp only at hfirst
  subst hfirst
  rfl

/-- Splitting the filtered record list at the first accepted record. -/
theorem filter_head_split (db : List Record)
    (hdb : List.Pairwise (fun a b : Record => a.id < b.id) db)
    (accept : Parsed → Bool) (e b : Nat) (r : Record)
    (hfind : db.find? (fun x => decide (b ≤ x.id) && accept x.parsed) = some r)
    (hre : r.id ≤ e) :
    db.filter (fun x => decide (b ≤ x.id) && accept x.parsed && decide (x.id ≤ e)) =
      r :: db.filter (fun x => decide (r.id + 1 ≤ x.id) && accept x.parsed &&
        decide (x.id ≤ e)) := by
  induction db with
  | nil => cases hfind
  | cons a t ih =>
    have hpw := List.pairwise_cons.mp hdb
    by_cases hpa : (decide (b ≤ a.id) && accept a.parsed) = true
    · have hcons : List.find? (fun x : Record => decide (b ≤ x.id) && accept x.parsed)
          (a :: t) = some a := List.find?_cons_of_pos t hpa
      rw [hcons] at hfind
      cases hfind
      have hfa : List.filter
          (fun x : Record => decide (b ≤ x.id) && accept x.parsed && decide (x.id ≤ e))
          (r :: t) = r :: List.filter
          (fun x : Record => decide (b ≤ x.id) && accept x.parsed && decide (x.id ≤ e)) t :=
        List.filter_cons_of_pos (by
          simp only [Bool.and_eq_true] at hpa ⊢
          exact ⟨hpa, decide_eq_true hre⟩)
      have hfb : List.filter
          (fun x : Record => decide (r.id + 1 ≤ x.id) && accept x.parsed &&
            decide (x.id ≤ e)) (r :: t) = List.filter
          (fun x : Record => decide (r.id + 1 ≤ x.id) && accept x.parsed &&
            decide (x.id ≤ e)) t :=
        List.filter_cons_of_neg (by
          intro hcontra
          simp only [Bool.and_eq_true, decide_eq_true_eq] at hcontra
          omega)
      rw [hfa, hfb]
      congr 1
      apply List.filter_congr
      intro x hx
      have hax : r.id < x.id := hpw.1 x hx
      have hb : b ≤ r.id := by
        have := ((Bool.and_eq_true _ _).mp hpa).1
        simpa using this
      have h1 : decide (b ≤ x.id) = true := decide_eq_true (by omega)
      have h2 : decide (r.id + 1 ≤ x.id) = true := decide_eq_true (by omega)
      rw [h1, h2]
    · have hcons : List.find? (fun x : Record => decide (b ≤ x.id) && accept x.parsed)
          (a :: t) = List.find? (fun x : Record => decide (b ≤ x.id) && accept x.parsed) t :=
        List.find?_cons_of_neg t hpa
      rw [hcons] at hfind
      have hrb : b ≤ r.id := by
        have hP := List.find?_some hfind
        have := ((Bool.and_eq_true _ _).mp hP).1
        simpa using this
      have hfa : List.filter
          (fun x : Record => decide (b ≤ x.id) && accept x.parsed && decide (x.id ≤ e))
          (a :: t) = List.filter
          (fun x : Record => decide (b ≤ x.id) && accept x.parsed && decide (x.id ≤ e)) t :=
        List.filter_cons_of_neg (by
          intro hcontra
          exact hpa ((Bool.and_eq_true _ _).mp hcontra).1)
      have hfb : List.filter
          (fun x : Record => decide (r.id + 1 ≤ x.id) && accept x.parsed &&
            decide (x.id ≤ e)) (a :: t) = List.filter
          (fun x : Record => decide (r.id + 1 ≤ x.id) && accept x.parsed &&
            decide (x.id ≤ e)) t :=
        List.filter_cons_of_neg (by
          intro hcontra
          simp only [Bool.and_eq_true, decide_eq_true_eq] at hcontra
          exact hpa ((Bool.and_eq_true _ _).mpr
            ⟨decide_eq_true (by omega), hcontra.1.2⟩))
      rw [hfa, hfb]
      exact ih hpw.2 hfind

/-- Full characterization of the drain loop: started on the first accepted
record with id at least `b`, iteration yields exactly the accepted records
with id in `[b, end_id]`, in database order. -/
theorem iterate_spec (db : List Record)
    (hdb : List.Pairwise (fun a b : Record => a.id < b.id) db)
    (accept : Parsed → Bool) (e : Nat) :
    ∀ (fuel : Nat) (b : Nat) (s : Selection),
      s.filter.accept = accept → s.end_id = e →
      s.cursor.light.pos = db.find? (fun r => decide (b ≤ r.id) && accept r.parsed) →
      (db.filter (fun r => decide (b ≤ r.id))).length < fuel →
      Selection.iterate db fuel s =
        db.filter (fun r => decide (b ≤ r.id) && accept r.parsed &&
          decide (r.id ≤ e)) := by
  intro fuel
  induction fuel with
  | zero =>
    intro b s _ _ _ hfuel
    exact absurd hfuel (Nat.not_lt_zero _)
  | succ n ih =>
    intro b s hacc hend hpos hfuel
    subst hacc
    subst hend
    rcases hfind : db.find? (fun r => decide (b ≤ r.id) && s.filter.accept r.parsed)
      with _ | r
    · rw [hfind] at hpos
      rw [iterate_of_pos_none db (n + 1) s hpos]
      symm
      rw [List.filter_eq_nil_iff]
      intro x hx hfull
      have hP : (decide (b ≤ x.id) && s.filter.accept x.parsed) = true :=
        ((Bool.and_eq_true _ _).mp hfull).1
      exact (List.find?_eq_none.mp hfind x hx) hP
    · rw [hfind] at hpos
      have hrmem := List.mem_of_find?_eq_some hfind
      have hrP := List.find?_some hfind
      have hrb : b ≤ r.id := by
        have := ((Bool.and_eq_true _ _).mp hrP).1
        simpa using this
      by_cases hre : r.id ≤ s.end_id
      · have hiter : Selection.iterate db (n + 1) s =
            r :: Selection.iterate db n (Selection.inc db s) := by
          conv_lhs => unfold Selection.iterate
          rw [hpos]
          show (if r.id ≤ s.end_id then
              r :: Selection.iterate db n (Selection.inc db s) else []) = _
          rw [if_pos hre]
        have hincl := Cursor.inc_light db s.cursor r hpos
        have hpos' : (Selection.inc db s).cursor.light.pos =
            db.find? (fun x => decide (r.id + 1 ≤ x.id) && s.filter.accept x.parsed) := by
          rcases hnext : nextAfter db r.id with _ | r1
          · have hpn : (Cursor.inc db s.cursor).light.pos = none := by
              rw [hincl.1, hnext]
            have hcureq : (Selection.inc db s).cursor =
                skipAux db s.filter.accept (db.length + 1) (Cursor.inc db s.cursor) := rfl
            rw [hcureq, skipAux_of_pos_none db s.filter.accept _ _ hpn, hpn]
            symm
            rw [List.find?_eq_none]
            intro x hx hxa
            have hgt : r.id + 1 ≤ x.id := by
              have := ((Bool.and_eq_true _ _).mp hxa).1
              simpa using this
            have hno := List.find?_eq_none.mp
              (show db.find? (fun x => decide (r.id < x.id)) = none from hnext) x hx
            exact hno (decide_eq_true (by omega))
          · have hm1 := nextAfter_mem_gt db r.id r1 hnext
            have hpn : (Cursor.inc db s.cursor).light.pos = some r1 := by
              rw [hincl.1, hnext]
            have hskipspec := SkipMismatches_spec db hdb
              { s with cursor := Cursor.inc db s.cursor } r1 hpn hm1.1
            have hshift : db.find? (fun x => decide (r.id + 1 ≤ x.id) &&
                  s.filter.accept x.parsed)
                = db.find? (fun x => decide (r1.id ≤ x.id) && s.filter.accept x.parsed) := by
              apply find?_congr_mem
              intro a ha
              have hiff : (r.id + 1 ≤ a.id) ↔ (r1.id ≤ a.id) := by
                by_cases hc : r.id < a.id
                · have h1 : r1.id ≤ a.id := find?_min_id db hdb _ r1
                    (show db.find? (fun x => decide (r.id < x.id)) = some r1 from hnext)
                    a ha (decide_eq_true hc)
                  constructor <;> intro <;> omega
                · have h2 := hm1.2
                  constructor <;> intro h3 <;> omega
              rw [decide_eq_decide.mpr hiff]
            rcases hf1 : db.find? (fun x => decide (r1.id ≤ x.id) &&
                s.filter.accept x.parsed) with _ | rp
            · rw [hshift, hf1]
              exact hskipspec.2.2 hf1
            · rw [hshift, hf1]
              exact (hskipspec.2.1 rp hf1).1
        have hfuel' : (db.filter (fun x => decide (r.id + 1 ≤ x.id))).length < n := by
          have := length_filter_lt_strict db b (r.id + 1) r hrmem hrb (by omega)
          omega
        have hih := ih (r.id + 1) (Selection.inc db s) rfl rfl hpos' hfuel'
        rw [hiter, hih]
        symm
        exact filter_head_split db hdb s.filter.accept s.end_id b r hfind hre
      · have hiter : Selection.iterate db (n + 1) s = [] := by
          conv_lhs => unfold Selection.iterate
          rw [hpos]
          show (if r.id ≤ s.end_id then
              r :: Selection.iterate db n (Selection.inc db s) else []) = _
          rw [if_neg hre]
        rw [hiter]
        symm
        rw [List.filter_eq_nil_iff]
        intro x hx hfull
        have hPx := ((Bool.and_eq_true _ _).mp hfull).1
        have hxe : decide (x.id ≤ s.end_id) = true := ((Bool.and_eq_true _ _).mp hfull).2
        have hrx : r.id ≤ x.id := find?_min_id db hdb _ r hfind x hx hPx
        simp only [decide_eq_true_eq] at hxe
        omega

/-- The head of a database sorted by id has the smallest id. -/
theorem sorted_head?_min (l : List Record)
    (hl : List.Pairwise (fun a b : Record => a.id < b.id) l) (r : Record)
    (h : l.head? = some r) : ∀ x ∈ l, r.id ≤ x.id := by
  cases l with
  | nil => cases h
  | cons a t =>
    cases h
    intro x hx
    rcases List.mem_cons.mp hx with rfl | hxt
    · exact Nat.le_refl _
    · exact Nat.le_of_lt ((List.pairwise_cons.mp hl).1 x hxt)

/-- C5: with a non-default time range, Selection::Rewind seeds the cursor at
the first endpoint returned by Database::TimeRange and sets end_id to the id
of the last endpoint (leaving end_id = MAX when `until` is the default);
when the time range yields no records the Selection stays empty; with the
default time range it rewinds to the oldest record; and in every case
SkipMismatches runs afterwards. -/
theorem c5_rewind_seeds_time_range (db : List Record) (hdb : DbWF db)
    (s : Selection) (hpos : s.cursor.light.pos = none)
    (hend : s.end_id = UINT64_MAX) :
    ((s.filter.since ≠ timeMin ∨ s.filter.until_ ≠ timeMax) →
      ((TimeRange db s.filter.since s.filter.until_).1 = none →
        Selection.Rewind db s = s ∧ (Selection.Rewind db s).toBool = false ∧
        ∀ x ∈ db, timeMatch s.filter.since s.filter.until_ x.parsed = false) ∧
      (∀ r1, (TimeRange db s.filter.since s.filter.until_).1 = some r1 →
        r1 ∈ db ∧ timeMatch s.filter.since s.filter.until_ r1.parsed = true ∧
        (∀ x ∈ db, timeMatch s.filter.since s.filter.until_ x.parsed = true →
          r1.id ≤ x.id) ∧
        Selection.Rewind db s =
          Selection.SkipMismatches db
            { cursor := Cursor.SetNext r1 s.cursor, filter := s.filter,
              end_id := match (TimeRange db s.filter.since s.filter.until_).2 with
                        | some r2 => r2.id
                        | none => s.end_id } ∧
        (∀ r2, (TimeRange db s.filter.since s.filter.until_).2 = some r2 →
          (Selection.Rewind db s).end_id = r2.id))) ∧
    (s.filter.since = timeMin ∧ s.filter.until_ = timeMax →
      Selection.Rewind db s =
        Selection.SkipMismatches db { s with cursor := Cursor.Rewind db s.cursor }) ∧
    (s.filter.until_ = timeMax → (Selection.Rewind db s).end_id = UINT64_MAX) := by
  have hmssub : List.Sublist
      (db.filter (fun r => timeMatch s.filter.since s.filter.until_ r.parsed)) db :=
    List.filter_sublist db
  have hmssorted : List.Pairwise (fun a b : Record => a.id < b.id)
      (db.filter (fun r => timeMatch s.filter.since s.filter.until_ r.parsed)) :=
    List.Pairwise.sublist hmssub hdb.1
  refine ⟨?_, ?_, ?_⟩
  · intro hne
    constructor
    · intro hfirst
      have hrw : Selection.Rewind db s = s := by
        unfold Selection.Rewind
        rw [if_pos hne]
        rcases htr : TimeRange db s.filter.since s.filter.until_ with ⟨f, sec⟩
        rw [htr] at hfirst
        simp only at hfirst
        subst hfirst
        rfl
      have hms : db.filter (fun r => timeMatch s.filter.since s.filter.until_ r.parsed) = [] := by
        unfold TimeRange at hfirst
        simp only at hfirst
        exact List.head?_eq_none_iff.mp hfirst
      refine ⟨hrw, ?_, ?_⟩
      · rw [hrw]
        simp [Selection.toBool, hpos]
      · intro x hx
        have := List.filter_eq_nil_iff.mp hms x hx
        revert this
        cases timeMatch s.filter.since s.filter.until_ x.parsed <;> simp
    · intro r1 hfirst
      have hmem1 : r1 ∈ db.filter (fun r => timeMatch s.filter.since s.filter.until_ r.parsed) := by
        unfold TimeRange at hfirst
        simp only at hfirst
        exact List.mem_of_mem_head? hfirst
      have hrw : Selection.Rewind db s =
          Selection.SkipMismatches db
            { cursor := Cursor.SetNext r1 s.cursor, filter := s.filter,
              end_id := match (TimeRange db s.filter.since s.filter.until_).2 with
                        | some r2 => r2.id
                        | none => s.end_id } := by
        unfold Selection.Rewind
        rw [if_pos hne]
        rcases htr : TimeRange db s.filter.since s.filter.until_ with ⟨f, sec⟩
        rw [htr] at hfirst
        simp only at hfirst
        subst hfirst
        rfl
      refine ⟨(List.mem_filter.mp hmem1).1, (List.mem_filter.mp hmem1).2, ?_, hrw, ?_⟩
      · intro x hx htx
        have hxms : x ∈ db.filter (fun r => timeMatch s.filter.since s.filter.until_ r.parsed) :=
          List.mem_filter.mpr ⟨hx, htx⟩
        have hhead : (db.filter (fun r => timeMatch s.filter.since s.filter.until_ r.parsed)).head?
            = some r1 := by
          unfold TimeRange at hfirst
          simpa using hfirst
        exact sorted_head?_min _ hmssorted r1 hhead x hxms
      · intro r2 hr2
        rw [hrw]
        unfold Selection.SkipMismatches
        simp only
        rw [hr2]
  · intro hdef
    unfold Selection.Rewind
    rw [if_neg (by simp [hdef.1, hdef.2])]
  · intro huntil
    have hsec : (TimeRange db s.filter.since s.filter.until_).2 = none := by
      unfold TimeRange
      simp [huntil]
    by_cases hcond : s.filter.since ≠ timeMin ∨ s.filter.until_ ≠ timeMax
    · unfold Selection.Rewind
      rw [if_pos hcond]
      rcases htr : TimeRange db s.filter.since s.filter.until_ with ⟨f, sec⟩
      rw [htr] at hsec
      simp only at hsec
      subst hsec
      cases f with
      | none => exact hend
      | some r1 =>
        unfold Selection.SkipMismatches
        simp only
        exact hend
    · unfold Selection.Rewind
      rw [if_neg hcond]
      unfold Selection.SkipMismatches
      simp only
      exact hend

/-- Witness for C5 at a concrete database and a selection with a non-default
time range. -/
theorem c5_witness :
    (Selection.Rewind
        [{ id := 1, parsed := ⟨none, none, none, none, some 0⟩ },
         { id := 2, parsed := ⟨none, none, none, none, some 5⟩ }]
        { cursor := { light := { pos := none, linked := false }, id := 0 },
          filter := { accept := fun _ => true, since := 1, until_ := timeMax },
          end_id := UINT64_MAX }).end_id = UINT64_MAX :=
  (c5_rewind_seeds_time_range
    [{ id := 1, parsed := ⟨none, none, none, none, some 0⟩ },
     { id := 2, parsed := ⟨none, none, none, none, some 5⟩ }]
    (by decide)
    { cursor := { light := { pos := none, linked := false }, id := 0 },
      filter := { accept := fun _ => true, since := 1, until_ := timeMax },
      end_id := UINT64_MAX }
    rfl rfl).2.2 rfl

/-- C1: iterating a Selection (Rewind followed by repeated operator++)
yields exactly the records whose parsed view the Filter accepts and whose id
is at most end_id, visited in strictly ascending id order; SkipMismatches
leaves the cursor only on records the Filter accepts; and Selection
truthiness is positioned and current id at most end_id. -/
theorem c1_selection_iteration (db : List Record) (hdb : DbWF db)
    (s0 : Selection) (hf : Filter.WF s0.filter)
    (hpos0 : s0.cursor.light.pos = none) (_hend0 : s0.end_id = UINT64_MAX)
    (fuel : Nat) (hfuel : db.length < fuel) :
    Selection.iterate db fuel (Selection.Rewind db s0) =
      db.filter (fun r => s0.filter.accept r.parsed &&
        decide (r.id ≤ (Selection.Rewind db s0).end_id)) ∧
    List.Pairwise (fun a b : Record => a.id < b.id)
      (Selection.iterate db fuel (Selection.Rewind db s0)) ∧
    (∀ (t : Selection) (r0 : Record), t.cursor.light.pos = some r0 → r0 ∈ db →
      ∀ rp, (Selection.SkipMismatches db t).cursor.light.pos = some rp →
        rp ∈ db ∧ t.filter.accept rp.parsed = true) ∧
    (∀ t : Selection, t.toBool = true ↔
      ∃ r, t.cursor.light.pos = some r ∧ r.id ≤ t.end_id) := by
  have hmain : Selection.iterate db fuel (Selection.Rewind db s0) =
      db.filter (fun r => s0.filter.accept r.parsed &&
        decide (r.id ≤ (Selection.Rewind db s0).end_id)) := by
    by_cases hcond : s0.filter.since ≠ timeMin ∨ s0.filter.until_ ≠ timeMax
    · rcases hfirst : (TimeRange db s0.filter.since s0.filter.until_).1 with _ | r1
      · have hrw := Rewind_first_none db s0 hcond hfirst
        have hms : db.filter
            (fun r => timeMatch s0.filter.since s0.filter.until_ r.parsed) = [] := by
          unfold TimeRange at hfirst
          simp only at hfirst
          exact List.head?_eq_none_iff.mp hfirst
        rw [hrw, iterate_of_pos_none db fuel s0 hpos0]
        symm
        rw [List.filter_eq_nil_iff]
        intro x hx hfull
        have hax : s0.filter.accept x.parsed = true := ((Bool.and_eq_true _ _).mp hfull).1
        have htm := hf hcond x.parsed hax
        exact (List.filter_eq_nil_iff.mp hms x hx) htm
      · have hrw := Rewind_first_some db s0 hcond r1 hfirst
        have hmem1' : r1 ∈ db.filter
            (fun r => timeMatch s0.filter.since s0.filter.until_ r.parsed) := by
          unfold TimeRange at hfirst
          simp only at hfirst
          exact List.mem_of_mem_head? hfirst
        have hmem1 : r1 ∈ db := (List.mem_filter.mp hmem1').1
        have hmin1 : ∀ x ∈ db, s0.filter.accept x.parsed = true → r1.id ≤ x.id := by
          intro x hx hax
          have htm := hf hcond x.parsed hax
          have hxms : x ∈ db.filter
              (fun r => timeMatch s0.filter.since s0.filter.until_ r.parsed) :=
            List.mem_filter.mpr ⟨hx, htm⟩
          have hsorted_ms : List.Pairwise (fun a b : Record => a.id < b.id)
              (db.filter (fun r => timeMatch s0.filter.since s0.filter.until_ r.parsed)) :=
            List.Pairwise.sublist (List.filter_sublist db) hdb.1
          have hhead : (db.filter
              (fun r => timeMatch s0.filter.since s0.filter.until_ r.parsed)).head?
              = some r1 := by
            unfold TimeRange at hfirst
            simpa using hfirst
          exact sorted_head?_min _ hsorted_ms r1 hhead x hxms
        have hposn : ({ cursor := Cursor.SetNext r1 s0.cursor, filter := s0.filter,
                        end_id := (match (TimeRange db s0.filter.since s0.filter.until_).2 with
                                   | some r2 => r2.id
                                   | none => s0.end_id) } : Selection).cursor.light.pos
            = some r1 := rfl
        have hskipspec := SkipMismatches_spec db hdb.1 _ r1 hposn hmem1
        have hposfix : (Selection.Rewind db s0).cursor.light.pos =
            db.find? (fun x => decide (r1.id ≤ x.id) && s0.filter.accept x.parsed) := by
          rw [hrw]
          rcases hf1 : db.find? (fun x => decide (r1.id ≤ x.id) &&
              s0.filter.accept x.parsed) with _ | rp
          · rw [hf1]
            exact hskipspec.2.2 hf1
          · rw [hf1]
            exact (hskipspec.2.1 rp hf1).1
        have hit := iterate_spec db hdb.1 s0.filter.accept
          (Selection.Rewind db s0).end_id fuel r1.id (Selection.Rewind db s0)
          (by rw [hrw]; rfl) rfl hposfix
          (Nat.lt_of_le_of_lt (List.length_filter_le _ _) hfuel)
        rw [hit]
        apply List.filter_congr
        intro x hx
        by_cases hax : s0.filter.accept x.parsed = true
        · have h1 : decide (r1.id ≤ x.id) = true := decide_eq_true (hmin1 x hx hax)
          rw [h1, hax]
          simp
        · have hax' : s0.filter.accept x.parsed = false := by
            revert hax
            cases s0.filter.accept x.parsed <;> simp
          rw [hax']
          simp
    · have hrw := Rewind_default db s0 hcond
      rcases hhead : db.head? with _ | a
      · have hdbnil : db = [] := List.head?_eq_none_iff.mp hhead
        subst hdbnil
        have hposnil : (Selection.Rewind [] s0).cursor.light.pos = none := by
          rw [hrw]
          rfl
        rw [iterate_of_pos_none _ fuel _ hposnil]
        rfl
      · have hamem : a ∈ db := List.mem_of_mem_head? hhead
        have hposr : ({ s0 with cursor := Cursor.Rewind db s0.cursor } :
            Selection).cursor.light.pos = some a := by
          show (Cursor.Rewind db s0.cursor).light.pos = some a
          unfold Cursor.Rewind LightCursor.Rewind
          simp [hhead]
        have hskipspec := SkipMismatches_spec db hdb.1
          { s0 with cursor := Cursor.Rewind db s0.cursor } a hposr hamem
        have hposfix : (Selection.Rewind db s0).cursor.light.pos =
            db.find? (fun x => decide (a.id ≤ x.id) && s0.filter.accept x.parsed) := by
          rw [hrw]
          rcases hf1 : db.find? (fun x => decide (a.id ≤ x.id) &&
              s0.filter.accept x.parsed) with _ | rp
          · rw [hf1]
            exact hskipspec.2.2 hf1
          · rw [hf1]
            exact (hskipspec.2.1 rp hf1).1
        have hit := iterate_spec db hdb.1 s0.filter.accept
          (Selection.Rewind db s0).end_id fuel a.id (Selection.Rewind db s0)
          (by rw [hrw]; rfl) rfl hposfix
          (Nat.lt_of_le_of_lt (List.length_filter_le _ _) hfuel)
        rw [hit]
        apply List.filter_congr
        intro x hx
        have h1 : decide (a.id ≤ x.id) = true :=
          decide_eq_true (sorted_head?_min db hdb.1 a hhead x hx)
        rw [h1]
        simp
  refine ⟨hmain, ?_, ?_, ?_⟩
  · rw [hmain]
    exact List.Pairwise.sublist (List.filter_sublist db) hdb.1
  · intro t r0 hp hm rp hrp
    have hs := SkipMismatches_spec db hdb.1 t r0 hp hm
    rcases hfind : db.find? (fun x => decide (r0.id ≤ x.id) &&
        t.filter.accept x.parsed) with _ | rq
    · rw [hs.2.2 hfind] at hrp
      cases hrp
    · rw [(hs.2.1 rq hfind).1] at hrp
      cases hrp
      have hq := List.find?_some hfind
      exact ⟨List.mem_of_find?_eq_some hfind, ((Bool.and_eq_true _ _).mp hq).2⟩
  · intro t
    unfold Selection.toBool
    rcases hp : t.cursor.light.pos with _ | r
    · simp
    · simp

/-- Witness for C1 at a concrete database and filter: the selection yields
exactly the two records whose site is "a". -/
theorem c1_witness :
    Selection.iterate dbW 4 (Selection.Rewind dbW sW) =
      [{ id := 1, parsed := ⟨some "a", none, none, none, some 10⟩ },
       { id := 3, parsed := ⟨some "a", none, none, none, some 12⟩ }] :=
  ((c1_selection_iteration dbW (by decide) sW
      (by intro h; simp [sW, timeMin] at h) rfl rfl 4 (by decide)).1).trans
    (by decide)

/-- C6: Cursor::Follow links the cursor into the append broadcaster only when
it is not currently positioned and not already linked, is a no-op otherwise,
and calling Follow twice has the same effect as calling it once. -/
theorem c6_follow_links_once_and_idempotent (c : Cursor) :
    (c.light.pos = none → c.light.linked = false →
      Cursor.Follow c = { c with light := { c.light with linked := true } }) ∧
    (c.light.pos ≠ none ∨ c.light.linked = true → Cursor.Follow c = c) ∧
    Cursor.Follow (Cursor.Follow c) = Cursor.Follow c := by
  rcases c with ⟨⟨pos, linked⟩, i⟩
  cases pos <;> cases linked <;> simp [Cursor.Follow]

/-- Witness for C6 at a concrete cursor. -/
theorem c6_witness :
    Cursor.Follow (Cursor.Follow { light := { pos := none, linked := false }, id := 0 }) =
      Cursor.Follow { light := { pos := none, linked := false }, id := 0 } :=
  (c6_follow_links_once_and_idempotent
    { light := { pos := none, linked := false }, id := 0 }).2.2

/-- C3: all Cursor operations (FixDeleted, Rewind, Follow, OnAppend,
operator++) preserve the invariant that the persistent id equals the id of the
record the cursor is positioned on whenever it is positioned. -/
theorem c3_cursor_id_invariant (db : List Record) (c : Cursor)
    (h : Cursor.IdInv c) :
    Cursor.IdInv (Cursor.FixDeleted db c).1 ∧
    Cursor.IdInv (Cursor.Rewind db c) ∧
    Cursor.IdInv (Cursor.Follow c) ∧
    (∀ (σ : Type) (record : Record) (st : σ) (cb : σ → σ),
      Cursor.IdInv (Cursor.OnAppend record c st cb).1) ∧
    Cursor.IdInv (Cursor.inc db c) := by
  refine ⟨?_, ?_, ?_, ?_, ?_⟩
  · intro r hr
    unfold Cursor.FixDeleted at hr ⊢
    by_cases hfix : (LightCursor.FixDeleted db c.id c.light).2
    · simp only [hfix, if_true] at hr ⊢
      simp only [hr]
    · simp only [hfix, Bool.false_eq_true, if_false] at hr ⊢
      exact h r hr
  · intro r hr
    unfold Cursor.Rewind at hr ⊢
    simp only at hr ⊢
    simp only [hr]
  · intro r hr
    unfold Cursor.Follow at hr ⊢
    by_cases hc : (c.light.pos.isNone && !c.light.linked) = true
    · rw [if_pos hc] at hr ⊢
      exact h r hr
    · rw [if_neg hc] at hr ⊢
      exact h r hr
  · intro σ record st cb r hr
    unfold Cursor.OnAppend at hr ⊢
    simp only at hr
    cases hr
    rfl
  · intro r hr
    unfold Cursor.inc at hr ⊢
    simp only at hr ⊢
    simp only [hr]

/-- Witness for C3 at a concrete cursor and database. -/
theorem c3_witness :
    Cursor.IdInv (Cursor.Rewind [{ id := 1, parsed := ⟨none, none, none, none, none⟩ }]
      { light := { pos := none, linked := false }, id := 0 }) :=
  (c3_cursor_id_invariant [{ id := 1, parsed := ⟨none, none, none, none, none⟩ }]
    { light := { pos := none, linked := false }, id := 0 }
    (by intro r hr; simp at hr)).2.1

/-- C4: Selection::OnAppend returns false and leaves the cursor unpositioned
when the Filter rejects the record's parsed view; otherwise it positions the
Cursor on the record, stores its id, returns true, and exactly one append
callback is invoked synchronously before it returns (the resulting callback
state is `cb st`; in the reject case the state is untouched). -/
theorem c4_onappend_filtered (σ : Type) (s : Selection) (record : Record)
    (st : σ) (cb : σ → σ) (hpos : s.cursor.light.pos = none) :
    (s.filter.accept record.parsed = false →
      Selection.OnAppend record s st cb = (s, false, st) ∧
      (Selection.OnAppend record s st cb).1.cursor.light.pos = none) ∧
    (s.filter.accept record.parsed = true →
      (Selection.OnAppend record s st cb).2.1 = true ∧
      (Selection.OnAppend record s st cb).1.cursor.light.pos = some record ∧
      (Selection.OnAppend record s st cb).1.cursor.id = record.id ∧
      (Selection.OnAppend record s st cb).2.2 = cb st ∧
      (Selection.OnAppend record s st cb).1.filter = s.filter ∧
      (Selection.OnAppend record s st cb).1.end_id = s.end_id) := by
  constructor
  · intro hrej
    unfold Selection.OnAppend
    simp [hrej, hpos]
  · intro hacc
    unfold Selection.OnAppend Cursor.OnAppend
    simp [hacc]

/-- Witness for C4 at a concrete selection and record. -/
theorem c4_witness :
    (Selection.OnAppend { id := 5, parsed := ⟨some "a", none, none, none, none⟩ }
        { cursor := { light := { pos := none, linked := false }, id := 3 },
          filter := { accept := fun p => p.site == some "a", since := 0, until_ := timeMax },
          end_id := UINT64_MAX }
        (0 : Nat) Nat.succ).2.1 = true ∧
    (Selection.OnAppend { id := 5, parsed := ⟨some "a", none, none, none, none⟩ }
        { cursor := { light := { pos := none, linked := false }, id := 3 },
          filter := { accept := fun p => p.site == some "a", since := 0, until_ := timeMax },
          end_id := UINT64_MAX }
        (0 : Nat) Nat.succ).2.2 = Nat.succ 0 := by
  have h := (c4_onappend_filtered Nat
    { cursor := { light := { pos := none, linked := false }, id := 3 },
      filter := { accept := fun p => p.site == some "a", since := 0, until_ := timeMax },
      end_id := UINT64_MAX }
    { id := 5, parsed := ⟨some "a", none, none, none, none⟩ }
    (0 : Nat) Nat.succ rfl).2 (by decide)
  exact ⟨h.1, h.2.2.2.1⟩

/-- C7 counterexample: a payload of exactly 65535 bytes is rejected by
PondClient::Send ("Payload is too large"), although the claim states that
payloads of at most 65535 bytes succeed. -/
theorem c7_counterexample :
    PondClient.Send 1 0 (List.replicate 65535 0) =
      Except.error "Payload is too large" := by
  unfold PondClient.Send
  rw [List.length_replicate, if_pos (by decide : 65535 ≥ uint16Max)]

/-- C7 (amended): PondClient::Send succeeds in encoding the 16-bit size field
iff the payload size is at most 65534 bytes (strictly below
`std::numeric_limits<uint16_t>::max()`), and throws "Payload is too large"
exactly when the payload size is 65535 bytes or more. -/
theorem c7_send_size_guard (id command : Nat) (payload : List Nat) :
    (payload.length < uint16Max ↔
      PondClient.Send id command payload =
        Except.ok ({ id := toBE16 id, command := toBE16 command,
                     size := toBE16 payload.length }, payload)) ∧
    (uint16Max ≤ payload.length ↔
      PondClient.Send id command payload = Except.error "Payload is too large") := by
  unfold PondClient.Send
  by_cases h : payload.length ≥ uint16Max
  · rw [if_pos h]
    exact ⟨⟨fun hlt => absurd h (by omega), fun heq => by cases heq⟩,
           ⟨fun _ => rfl, fun _ => h⟩⟩
  · rw [if_neg h]
    exact ⟨⟨fun _ => rfl, fun _ => by omega⟩,
           ⟨fun hle => absurd hle h, fun heq => by cases heq⟩⟩

/-- Witness for C7 (amended) at a concrete payload. -/
theorem c7_witness :
    PondClient.Send 1 2 [7] =
      Except.ok ({ id := toBE16 1, command := toBE16 2, size := toBE16 1 }, [7]) :=
  (c7_send_size_guard 1 2 [7]).1.mp (by decide)

/-- C8 counterexample: a record whose parsed datagram carries the empty site
name is silently dropped by the per-site-append branch of
ResultWriter::Write, although it does have a site, so not only site-less
records are dropped. -/
theorem c8_counterexample :
    ResultWriter.writePerSite 64 (some "") = WriteAction.dropped ∧
    (some "" : Option String) ≠ none := by
  exact ⟨rfl, by simp⟩

/-- C8 (amended): in per-site-append mode, a record whose parsed datagram has
no site is silently dropped, as is a record whose site name is empty or does
not fit the writer's internal buffer; every other record appends one line to
the file named by the sanitized site name (ASCII alphanumeric characters
kept, every other character replaced by an underscore), opened with append
semantics and O_NOFOLLOW (never following symlinks). -/
theorem c8_write_per_site (bufferSize : Nat) (site : String) :
    ResultWriter.writePerSite bufferSize none = WriteAction.dropped ∧
    (site.length = 0 ∨ bufferSize ≤ site.length →
      ResultWriter.writePerSite bufferSize (some site) = WriteAction.dropped) ∧
    (0 < site.length → site.length < bufferSize →
      ResultWriter.writePerSite bufferSize (some site) =
        WriteAction.appendLine
          (String.mk (site.data.map (fun ch => if IsAlphaNumericASCII ch then ch else '_')))
          perSiteOpenFlags) ∧
    perSiteOpenFlags.append = true ∧ perSiteOpenFlags.nofollow = true := by
  refine ⟨rfl, ?_, ?_, rfl, rfl⟩
  · intro hcond
    unfold ResultWriter.writePerSite SanitizeSiteName
    have : site.length = 0 ∨ site.length ≥ bufferSize := by omega
    simp [this]
  · intro h1 h2
    unfold ResultWriter.writePerSite SanitizeSiteName IsSafeSiteChar
    have : ¬(site.length = 0 ∨ site.length ≥ bufferSize) := by omega
    simp [this]

/-- Witness for C8 (amended) at a concrete site name. -/
theorem c8_witness :
    ResultWriter.writePerSite 64 (some "a.b") =
      WriteAction.appendLine "a_b" perSiteOpenFlags := by
  have h := (c8_write_per_site 64 "a.b").2.2.1 (by decide) (by decide)
  exact h.trans (by decide)

/-- C9 counterexample: for the unknown command "bogus", main prints
"Unknown command: bogus" to stderr and fails, but does not print the usage
message as the claim states. -/
theorem c9_counterexample :
    (mainRun (fun _ => "") (fun _ => none) false "pond" ["server", "bogus"] []).stderrLines
      = ["Unknown command: bogus"] ∧
    ["Unknown command: bogus"] ≠ usageLines "pond" ∧
    (mainRun (fun _ => "") (fun _ => none) false "pond" ["server", "bogus"] []).exitCode
      = EXIT_FAILURE := by
  refine ⟨by decide, by decide, by decide⟩

/-- C9 (amended): the bundled CLI client exits 0 when its query stream ends
with a clean END frame and nonzero when the loop throws (server ERROR or
protocol error), with the thrown message printed to stderr; an unknown
command prints "Unknown command: " followed by the command name (the usage
message is printed only when fewer than two arguments are given) and exits
nonzero; a parse failure of an individual record logs "Failed to parse log
record" to stderr and the loop continues with the next record. -/
theorem c9_cli_exit_codes (toText : List Nat → String)
    (parseRecord : List Nat → Option String) (sock : Bool)
    (prog server command : String) (queryArgs : List String)
    (frames rest : List RxFrame) (f : RxFrame)
    (siteF : Option String) (followF : Bool) :
    (parseQueryArgs none false queryArgs = Except.ok (siteF, followF) →
      ((runQueryLoop toText parseRecord sock 1 frames).outcome = QueryOutcome.cleanEnd →
        mainRun toText parseRecord sock prog (server :: "query" :: queryArgs) frames =
          { exitCode := EXIT_SUCCESS,
            stderrLines := (runQueryLoop toText parseRecord sock 1 frames).stderrLines,
            stdoutLines := (runQueryLoop toText parseRecord sock 1 frames).stdoutLines,
            packets := (runQueryLoop toText parseRecord sock 1 frames).packets }) ∧
      (∀ m, (runQueryLoop toText parseRecord sock 1 frames).outcome = QueryOutcome.thrown m →
        mainRun toText parseRecord sock prog (server :: "query" :: queryArgs) frames =
          { exitCode := EXIT_FAILURE,
            stderrLines := (runQueryLoop toText parseRecord sock 1 frames).stderrLines ++ [m],
            stdoutLines := (runQueryLoop toText parseRecord sock 1 frames).stdoutLines,
            packets := (runQueryLoop toText parseRecord sock 1 frames).packets })) ∧
    (command ≠ "query" →
      mainRun toText parseRecord sock prog (server :: command :: queryArgs) frames =
        { exitCode := EXIT_FAILURE, stderrLines := ["Unknown command: " ++ command],
          stdoutLines := [], packets := [] }) ∧
    (f.id = 1 → f.command = PondResponseCommand.error →
      runQueryLoop toText parseRecord sock 1 (f :: rest) =
        { outcome := QueryOutcome.thrown (toText f.payload),
          stdoutLines := [], packets := [], stderrLines := [] }) ∧
    (f.id = 1 → f.command = PondResponseCommand.logRecord → sock = false →
      parseRecord f.payload = none →
      runQueryLoop toText parseRecord sock 1 (f :: rest) =
        { outcome := (runQueryLoop toText parseRecord sock 1 rest).outcome,
          stdoutLines := (runQueryLoop toText parseRecord sock 1 rest).stdoutLines,
          packets := (runQueryLoop toText parseRecord sock 1 rest).packets,
          stderrLines := "Failed to parse log record" ::
            (runQueryLoop toText parseRecord sock 1 rest).stderrLines }) ∧
    mainRun toText parseRecord sock prog [server] frames =
      { exitCode := EXIT_FAILURE, stderrLines := usageLines prog,
        stdoutLines := [], packets := [] } := by
  refine ⟨?_, ?_, ?_, ?_, ?_⟩
  · intro hargs
    constructor
    · intro hclean
      simp [mainRun, hargs, hclean]
    · intro m hthrown
      simp [mainRun, hargs, hthrown]
  · intro hcmd
    simp [mainRun, hcmd]
  · intro hid hcmd
    conv_lhs => rw [runQueryLoop.eq_def]
    simp [hid, hcmd]
  · intro hid hcmd hsock hparse
    subst hsock
    conv_lhs => rw [runQueryLoop.eq_def]
    simp [hid, hcmd, hparse]
  · rfl

/-- Witness for C9 (amended) at a concrete unknown command. -/
theorem c9_witness :
    mainRun (fun _ => "") (fun _ => none) false "pond" ("s" :: "x" :: []) [] =
      { exitCode := EXIT_FAILURE, stderrLines := ["Unknown command: " ++ "x"],
        stdoutLines := [], packets := [] } :=
  (c9_cli_exit_codes (fun _ => "") (fun _ => none) false "pond" "s" "x" [] [] []
    { id := 0, command := PondResponseCommand.nop, payload := [] }
    none false).2.1 (by decide)

/-- C10: in the bundled client's receive loop, a frame whose id differs from
the query id is silently discarded, regardless of its command: the loop's
entire result on such a frame equals its result on the remaining frames. -/
theorem c10_mismatched_id_discarded (toText : List Nat → String)
    (parseRecord : List Nat → Option String) (stdoutIsPacket : Bool)
    (qid : Nat) (f : RxFrame) (rest : List RxFrame) (h : f.id ≠ qid) :
    runQueryLoop toText parseRecord stdoutIsPacket qid (f :: rest) =
      runQueryLoop toText parseRecord stdoutIsPacket qid rest := by
  conv_lhs => rw [runQueryLoop.eq_def]
  simp [h]

/-- Witness for C10 at a concrete frame list. -/
theorem c10_witness :
    runQueryLoop (fun _ => "") (fun _ => none) false 1
        [{ id := 2, command := PondResponseCommand.done, payload := [] }] =
      runQueryLoop (fun _ => "") (fun _ => none) false 1 [] :=
  c10_mismatched_id_discarded (fun _ => "") (fun _ => none) false 1
    { id := 2, command := PondResponseCommand.done, payload := [] } [] (by decide)

end Pond
